import Mathlib

/-!
# Verification of the wireguard-rs handshake peer gate and UAPI status serializer

Shallow embedding of:
 * `src/handshake/peer.rs` — the per-peer handshake state machine and its
   replay/flood admission gate (`Peer::check_replay_flood`, `get_state`,
   `set_state`, `impl Clone for State`);
 * `src/configuration/uapi/get.rs` — the status serializer `serialize`.

External collaborators absent from the sources (the `timestamp` module, the
`HandshakeError` enum from `types`, the `Device` registry, the `Configuration`
trait) are modelled from the specification, as noted on each definition.
-/

namespace WireguardRs

/-! ## Timestamps and the comparator -/

/-- Modelled from the spec: the tamper-evident timestamp format of §4.3
(`timestamp::TAI64N`, whose defining module is not among the sources):
seconds plus sub-second (nanosecond) precision, with the natural
lexicographic ordering. -/
structure TAI64N where
  sec : Nat
  nsec : Nat
deriving DecidableEq, Repr

namespace timestamp

/-- Modelled from the spec: the timestamp comparator of §4.3
(`timestamp::compare`, whose defining module is not among the sources):
"returns true iff the second argument is strictly greater than the first
under the format's natural ordering". -/
def compare (old new : TAI64N) : Bool :=
  (old.sec < new.sec) || (old.sec == new.sec && old.nsec < new.nsec)

end timestamp

/-! ## Instants and durations

`std::time::Instant` is a reading of a monotonic clock; we embed an instant
as a number of nanoseconds since an arbitrary origin, and `std::time::Duration`
likewise as nanoseconds. `Instant::elapsed` at current time `now` is the
saturating difference `now - last` (truncated `Nat` subtraction). -/

/-- An instant of the monotonic clock, in nanoseconds since an origin. -/
abbrev Instant := Nat

/-- A span of time, in nanoseconds. -/
abbrev Duration := Nat

/-- Rust's `Duration::from_millis`. -/
def Duration.from_millis (ms : Nat) : Duration := ms * 1000000

/-- The constant `TIME_BETWEEN_INITIATIONS = Duration::from_millis(20)`
(src/handshake/peer.rs, lines 17–19). -/
def TIME_BETWEEN_INITIATIONS : Duration := Duration.from_millis 20

/-! ## Ephemeral secrets (x25519-dalek `StaticSecret`)

`x25519_dalek::StaticSecret` is an external library type.  We embed it as its
32 scalar bytes.  Its `From<[u8; 32]>` constructor clamps the scalar (clears
the low 3 bits of byte 0, clears the top bit and sets bit 6 of byte 31) and
`to_bytes` returns the stored scalar bytes. -/

/-- Clamping applied by `x25519_dalek::StaticSecret::from` to a 32-byte scalar:
byte 0 is masked with 248, byte 31 is masked with 127 and then or-ed with 64. -/
def clamp_scalar (b : List Nat) : List Nat :=
  (b.set 0 ((b.getD 0 0) &&& 248)).set 31 (((b.getD 31 0) &&& 127) ||| 64)

/-- The x25519-dalek `StaticSecret`: 32 scalar bytes. -/
structure StaticSecret where
  bytes : List Nat
deriving DecidableEq, Repr

/-- Constructor `StaticSecret::from(bytes)`: stores the clamped scalar. -/
def StaticSecret.from2 (b : List Nat) : StaticSecret :=
  ⟨clamp_scalar b⟩

/-- Accessor `StaticSecret::to_bytes`: returns the stored scalar bytes. -/
def StaticSecret.to_bytes (sk : StaticSecret) : List Nat :=
  sk.bytes

/-! ## The handshake state enum (src/handshake/peer.rs, lines 43–51) -/

/-- The enum `State`: the handshake phase of a peer.  `hs` and `ck` are the 32-byte
handshake-hash and chaining-key accumulators (`GenericArray<u8, U32>`),
embedded as byte lists. -/
inductive State where
  | Reset : State
  | InitiationSent (sender : Nat) (eph_sk : StaticSecret)
      (hs : List Nat) (ck : List Nat) : State
deriving DecidableEq, Repr

/-- The source's `impl Clone for State` (src/handshake/peer.rs, lines 53–70): `Reset`
clones to `Reset`; `InitiationSent` copies `sender`, `hs`, `ck` and rebuilds
the ephemeral secret by `StaticSecret::from(eph_sk.to_bytes())`. -/
def State.clone : State → State
  | State.Reset => State.Reset
  | State.InitiationSent sender eph_sk hs ck =>
      State.InitiationSent sender (StaticSecret.from2 eph_sk.to_bytes) hs ck

/-! ## Errors

Modelled from the spec: the `HandshakeError` variants of the admission gate
(§7; the defining `types` module is not among the sources): `OldTimestamp`
("StaleTimestamp", a replay) and `InitiationFlood` (rate-limit denial). -/

inductive HandshakeError where
  | OldTimestamp : HandshakeError
  | InitiationFlood : HandshakeError
deriving DecidableEq, Repr

/-! ## The peer's mutable state

`Peer<T>` (src/handshake/peer.rs, lines 25–41) guards four mutable cells
behind individual locks: `state`, `timestamp`, `last_initiation_consumption`
and the DoS-mitigation `macs` generator.  We embed the lock-protected contents
as one record, with the `macs` generator opaque (an uninterpreted `Nat`); the
identity and static key material are immutable and play no part in the
claims. -/

structure PeerMut where
  state : State
  timestamp : Option TAI64N
  last_initiation_consumption : Option Instant
  macs : Nat
deriving DecidableEq, Repr

/-- Constructor `Peer::new` (src/handshake/peer.rs, lines 76–91): phase `Reset`,
no timestamp, no flood marker.  `macs0` is the opaque initial generator. -/
def Peer.new (macs0 : Nat) : PeerMut :=
  { state := State.Reset
    timestamp := none
    last_initiation_consumption := none
    macs := macs0 }

/-- Accessor `Peer::get_state` (src/handshake/peer.rs, lines 96–98): returns a clone
of the current phase. -/
def Peer.get_state (p : PeerMut) : State :=
  p.state.clone

/-- Mutator `Peer::set_state` (src/handshake/peer.rs, lines 104–106): unconditionally
overwrites the phase. -/
def Peer.set_state (p : PeerMut) (state_new : State) : PeerMut :=
  { p with state := state_new }

/-- The gate `Peer::check_replay_flood` (src/handshake/peer.rs, lines 114–154).

The Rust function mutates the peer through its mutex guards and calls
`device.release(sender)` on the registry; here it maps the pre-state to the
post-state, the list of `release` invocations made (in order), and the
`Result`.  `now` is the reading of `Instant::now()` during the call, so the
flood check compares `last.elapsed() = now - last` against
`TIME_BETWEEN_INITIATIONS`, and the flood marker is set to `now` on success.
An early `return Err(..)` leaves the guarded cells as they were, so the
post-state on the denial paths is the pre-state. -/
def check_replay_flood (p : PeerMut) (now : Instant) (timestamp_new : TAI64N) :
    PeerMut × List Nat × Except HandshakeError Unit :=
  -- check replay attack
  if (match p.timestamp with
      | some timestamp_old => !timestamp.compare timestamp_old timestamp_new
      | none => false) then
    (p, [], Except.error HandshakeError.OldTimestamp)
  -- check flood attack
  else if (match p.last_initiation_consumption with
      | some last => decide (now - last < TIME_BETWEEN_INITIATIONS)
      | none => false) then
    (p, [], Except.error HandshakeError.InitiationFlood)
  else
    -- reset state: release the sender of an in-flight initiation
    let released : List Nat :=
      match p.state with
      | State.InitiationSent sender _ _ _ => [sender]
      | _ => []
    -- update replay & flood protection
    ({ state := State.Reset
       timestamp := some timestamp_new
       last_initiation_consumption := some now
       macs := p.macs },
     released, Except.ok ())

/-- The snapshot of the three protected cells named by the spec's
no-mutation-on-denial property: (phase, timestamp, flood marker). -/
def snapshot (p : PeerMut) : State × Option TAI64N × Option Instant :=
  (p.state, p.timestamp, p.last_initiation_consumption)

/-! ## The UAPI status serializer (src/configuration/uapi/get.rs)

The serializer is generic over an `io::Write` sink whose `write` calls can
fail.  We embed the sink as a `MockWriter` recording the chunks successfully
written so far and a counter of raw `writer.write` calls issued; an oracle
`Nat → Option IOErr` injects the outcome of each successive raw call
(`none` = success, `some e` = failure with error `e`).  An `io::Error` is
embedded as an opaque numeric identity. -/

/-- Opaque identity of an `io::Error` value. -/
abbrev IOErr := Nat

/-- The mock `io::Write` sink. -/
structure MockWriter where
  chunks : List String
  calls : Nat
deriving DecidableEq, Repr

/-- The sink with nothing written yet. -/
def MockWriter.empty : MockWriter :=
  { chunks := [], calls := 0 }

/-- One raw `writer.write` call: consults the oracle at the current call
index; on success the chunk is recorded, on failure nothing is recorded and
the underlying `io::Error` is returned. -/
def rawWrite (oracle : Nat → Option IOErr) (w : MockWriter) (s : String) :
    MockWriter × Except IOErr Unit :=
  match oracle w.calls with
  | none => ({ chunks := w.chunks ++ [s], calls := w.calls + 1 }, Except.ok ())
  | some e => ({ w with calls := w.calls + 1 }, Except.error e)

/-- The local `write` closure of `serialize` (src/configuration/uapi/get.rs,
lines 7–15): four raw writes — key, `=`, value, newline — each followed by
`?`, so the first failing raw write aborts the rest of the line and the
closure returns that error. -/
def write (oracle : Nat → Option IOErr) (w : MockWriter) (key value : String) :
    MockWriter × Except IOErr Unit :=
  match rawWrite oracle w key with
  | (w, Except.error e) => (w, Except.error e)
  | (w, Except.ok _) =>
  match rawWrite oracle w "=" with
  | (w, Except.error e) => (w, Except.error e)
  | (w, Except.ok _) =>
  match rawWrite oracle w value with
  | (w, Except.error e) => (w, Except.error e)
  | (w, Except.ok _) => rawWrite oracle w "\x0a"

/-- Modelled from the spec: the per-peer record returned by
`Configuration::get_peers` (the `Configuration` trait is not among the
sources); its fields are exactly those the serializer reads (§6): byte
counters, the two last-handshake components, key material, and the allowed
IPs as (address text, prefix length) pairs. -/
structure PeerEntry where
  rx_bytes : Nat
  tx_bytes : Nat
  last_handshake_time_sec : Nat
  last_handshake_time_nsec : Nat
  public_key : List Nat
  preshared_key : List Nat
  allowed_ips : List (String × Nat)
deriving DecidableEq, Repr

/-- Modelled from the spec: the interface-level view of the `Configuration`
trait consumed by `serialize` (§6): optional private key, listen port and
fwmark, plus the peer sequence of `get_peers`. -/
structure Config where
  private_key : Option StaticSecret
  listen_port : Option Nat
  fwmark : Option Nat
  peers : List PeerEntry
deriving DecidableEq, Repr

/-- Lowercase hexadecimal digit. -/
def hexDigit (n : Nat) : Char :=
  ("0123456789abcdef".toList).getD n '0'

/-- Lowercase hexadecimal of one byte, as `hex::encode` renders it. -/
def hexByte (b : Nat) : String :=
  String.mk [hexDigit (b / 16 % 16), hexDigit (b % 16)]

/-- The library function `hex::encode`: lowercase hex of a byte sequence. -/
def hexEncode (bytes : List Nat) : String :=
  String.join (bytes.map hexByte)

/-- The `allowed_ip` loop of `serialize` (src/configuration/uapi/get.rs,
lines 45–47): one `write("allowed_ip", ip + "/" + cidr)?` per entry,
in order. -/
def serializeAllowedIps (oracle : Nat → Option IOErr) (w : MockWriter) :
    List (String × Nat) → MockWriter × Except IOErr Unit
  | [] => (w, Except.ok ())
  | (ip, cidr) :: rest =>
    match write oracle w "allowed_ip" (ip ++ "/" ++ toString cidr) with
    | (w, Except.error e) => (w, Except.error e)
    | (w, Except.ok _) => serializeAllowedIps oracle w rest

/-- The body of the peer loop of `serialize` (src/configuration/uapi/get.rs,
lines 33–47): the six fixed `key=value` lines followed by the `allowed_ip`
lines, every `write` call followed by `?`.  Note the source passes
`p.last_handshake_time_nsec` as the value of BOTH the
`last_handshake_time_sec` line and the `last_handshake_time_nsec` line
(lines 35–42); the embedding reproduces this. -/
def serializePeerEntry (oracle : Nat → Option IOErr) (w : MockWriter)
    (p : PeerEntry) : MockWriter × Except IOErr Unit :=
  match write oracle w "rx_bytes" (toString p.rx_bytes) with
  | (w, Except.error e) => (w, Except.error e)
  | (w, Except.ok _) =>
  match write oracle w "tx_bytes" (toString p.tx_bytes) with
  | (w, Except.error e) => (w, Except.error e)
  | (w, Except.ok _) =>
  match write oracle w "last_handshake_time_sec"
      (toString p.last_handshake_time_nsec) with
  | (w, Except.error e) => (w, Except.error e)
  | (w, Except.ok _) =>
  match write oracle w "last_handshake_time_nsec"
      (toString p.last_handshake_time_nsec) with
  | (w, Except.error e) => (w, Except.error e)
  | (w, Except.ok _) =>
  match write oracle w "public_key" (hexEncode p.public_key) with
  | (w, Except.error e) => (w, Except.error e)
  | (w, Except.ok _) =>
  match write oracle w "preshared_key" (hexEncode p.preshared_key) with
  | (w, Except.error e) => (w, Except.error e)
  | (w, Except.ok _) => serializeAllowedIps oracle w p.allowed_ips

/-- The peer loop of `serialize` (src/configuration/uapi/get.rs, lines
31–48): `while let Some(p) = peers.pop()`.  `Vec::pop` removes the LAST
element of the vector returned by `get_peers`, so the loop serializes the
peers from last to first; a failing line stops the loop and returns the
error. -/
def serializePeers (oracle : Nat → Option IOErr) (w : MockWriter)
    (peers : List PeerEntry) : MockWriter × Except IOErr Unit :=
  match h : peers.getLast? with
  | none => (w, Except.ok ())
  | some p =>
    match serializePeerEntry oracle w p with
    | (w2, Except.error e) => (w2, Except.error e)
    | (w2, Except.ok _) => serializePeers oracle w2 peers.dropLast
termination_by peers.length
decreasing_by
  have hne : peers ≠ [] := by
    intro hnil
    rw [hnil] at h
    simp at h
  have hpos : 0 < peers.length := List.length_pos.mpr hne
  simp [List.length_dropLast]
  omega

/-- The interface section of `serialize` (src/configuration/uapi/get.rs,
lines 17–28): for each of `private_key`, `listen_port`, `fwmark` that is
present, the line is written inside `Option::map`, whose `io::Result` value
is DROPPED — only the mutated writer survives, any error is discarded. -/
def interfaceWriter (oracle : Nat → Option IOErr) (w : MockWriter)
    (config : Config) : MockWriter :=
  let w := match config.private_key with
    | some sk => (write oracle w "private_key" (hexEncode sk.to_bytes)).1
    | none => w
  let w := match config.listen_port with
    | some port => (write oracle w "listen_port" (toString port)).1
    | none => w
  match config.fwmark with
  | some fwmark => (write oracle w "fwmark" (toString fwmark)).1
  | none => w

/-- The serializer `serialize` (src/configuration/uapi/get.rs, lines 6–51):
interface lines first (errors discarded inside `Option::map`), then the
peer loop (errors propagated). -/
def serialize (oracle : Nat → Option IOErr) (w : MockWriter) (config : Config) :
    MockWriter × Except IOErr Unit :=
  -- serialize interface
  let w := match config.private_key with
    | some sk => (write oracle w "private_key" (hexEncode sk.to_bytes)).1
    | none => w
  let w := match config.listen_port with
    | some port => (write oracle w "listen_port" (toString port)).1
    | none => w
  let w := match config.fwmark with
    | some fwmark => (write oracle w "fwmark" (toString fwmark)).1
    | none => w
  -- serialize all peers
  serializePeers oracle w config.peers

/-- The oracle of a fault-free sink: every raw write succeeds. -/
def okOracle : Nat → Option IOErr := fun _ => none

/-- The four chunks a successful `write(key, value)` line emits. -/
def kvChunks (key value : String) : List String :=
  [key, "=", value, "\x0a"]

/-- The chunks one peer entry emits on a fault-free sink. -/
def peerChunks (p : PeerEntry) : List String :=
  kvChunks "rx_bytes" (toString p.rx_bytes) ++
  kvChunks "tx_bytes" (toString p.tx_bytes) ++
  kvChunks "last_handshake_time_sec" (toString p.last_handshake_time_nsec) ++
  kvChunks "last_handshake_time_nsec" (toString p.last_handshake_time_nsec) ++
  kvChunks "public_key" (hexEncode p.public_key) ++
  kvChunks "preshared_key" (hexEncode p.preshared_key) ++
  p.allowed_ips.flatMap (fun q => kvChunks "allowed_ip" (q.1 ++ "/" ++ toString q.2))

/-- The chunks the interface section emits on a fault-free sink. -/
def interfaceChunks (config : Config) : List String :=
  (match config.private_key with
   | some sk => kvChunks "private_key" (hexEncode sk.to_bytes)
   | none => []) ++
  (match config.listen_port with
   | some port => kvChunks "listen_port" (toString port)
   | none => []) ++
  (match config.fwmark with
   | some fwmark => kvChunks "fwmark" (toString fwmark)
   | none => [])

/-! ## Theorems -/

/-- Exhaustive behaviour of the admission gate: exactly one of the three
paths of `check_replay_flood` is taken — stale-timestamp denial, flood
denial, or commit — with the evidence for the conditions that select it. -/
theorem check_replay_flood_cases (p : PeerMut) (now : Instant) (ts : TAI64N) :
    ((∃ old, p.timestamp = some old ∧ timestamp.compare old ts = false) ∧
       check_replay_flood p now ts =
         (p, [], Except.error HandshakeError.OldTimestamp))
    ∨ ((p.timestamp = none ∨
          ∃ old, p.timestamp = some old ∧ timestamp.compare old ts = true) ∧
       (∃ last, p.last_initiation_consumption = some last ∧
          now - last < TIME_BETWEEN_INITIATIONS) ∧
       check_replay_flood p now ts =
         (p, [], Except.error HandshakeError.InitiationFlood))
    ∨ ((p.timestamp = none ∨
          ∃ old, p.timestamp = some old ∧ timestamp.compare old ts = true) ∧
       (p.last_initiation_consumption = none ∨
          ∃ last, p.last_initiation_consumption = some last ∧
            ¬(now - last < TIME_BETWEEN_INITIATIONS)) ∧
       check_replay_flood p now ts =
         ({ state := State.Reset, timestamp := some ts,
            last_initiation_consumption := some now, macs := p.macs },
          (match p.state with
           | State.InitiationSent sender _ _ _ => [sender]
           | _ => []),
          Except.ok ())) := by
  rcases hts : p.timestamp with _ | old
  · rcases hlc : p.last_initiation_consumption with _ | last
    · refine Or.inr (Or.inr ⟨Or.inl rfl, Or.inl rfl, ?_⟩)
      simp [check_replay_flood, hts, hlc]
    · by_cases hel : now - last < TIME_BETWEEN_INITIATIONS
      · refine Or.inr (Or.inl ⟨Or.inl rfl, ⟨last, rfl, hel⟩, ?_⟩)
        simp [check_replay_flood, hts, hlc, hel]
      · refine Or.inr (Or.inr ⟨Or.inl rfl, Or.inr ⟨last, rfl, hel⟩, ?_⟩)
        simp [check_replay_flood, hts, hlc, hel]
  · by_cases hcmp : timestamp.compare old ts = true
    · rcases hlc : p.last_initiation_consumption with _ | last
      · refine Or.inr (Or.inr ⟨Or.inr ⟨old, rfl, hcmp⟩, Or.inl rfl, ?_⟩)
        simp [check_replay_flood, hts, hlc, hcmp]
      · by_cases hel : now - last < TIME_BETWEEN_INITIATIONS
        · refine Or.inr (Or.inl ⟨Or.inr ⟨old, rfl, hcmp⟩, ⟨last, rfl, hel⟩, ?_⟩)
          simp [check_replay_flood, hts, hlc, hcmp, hel]
        · refine Or.inr (Or.inr ⟨Or.inr ⟨old, rfl, hcmp⟩, Or.inr ⟨last, rfl, hel⟩, ?_⟩)
          simp [check_replay_flood, hts, hlc, hcmp, hel]
    · refine Or.inl ⟨⟨old, rfl, Bool.not_eq_true _ ▸ hcmp⟩, ?_⟩
      simp [check_replay_flood, hts, hcmp]

/-- Evidence that the replay check denies (a stored timestamp the candidate
is not strictly newer than) contradicts evidence that it passes. -/
theorem replay_deny_pass_contradiction (p : PeerMut) (ts old : TAI64N)
    (hold : p.timestamp = some old) (hcmp : timestamp.compare old ts = false)
    (hok : p.timestamp = none ∨
      ∃ o, p.timestamp = some o ∧ timestamp.compare o ts = true) : False := by
  rcases hok with hnone | ⟨o, ho, hc⟩
  · rw [hold] at hnone
    exact Option.noConfusion hnone
  · rw [hold] at ho
    injection ho with he
    subst he
    rw [hcmp] at hc
    exact Bool.noConfusion hc

/-- Evidence that the flood check denies (a marker within the minimum
interval) contradicts evidence that it passes. -/
theorem flood_deny_pass_contradiction (p : PeerMut) (now last : Instant)
    (hlast : p.last_initiation_consumption = some last)
    (hel : now - last < TIME_BETWEEN_INITIATIONS)
    (hok : p.last_initiation_consumption = none ∨
      ∃ l, p.last_initiation_consumption = some l ∧
        ¬(now - l < TIME_BETWEEN_INITIATIONS)) : False := by
  rcases hok with hnone | ⟨l, hl, hc⟩
  · rw [hlast] at hnone
    exact Option.noConfusion hnone
  · rw [hlast] at hl
    injection hl with he
    subst he
    exact hc hel

/-- C1: a call to `check_replay_flood` that returns a denial — `OldTimestamp`
or `InitiationFlood` — leaves the peer's protected state untouched: the
snapshot of (phase, timestamp, flood marker) after the denied call equals the
one before it. -/
theorem check_replay_flood_no_mutation_on_denial
    (p : PeerMut) (now : Instant) (ts : TAI64N) (e : HandshakeError)
    (h : (check_replay_flood p now ts).2.2 = Except.error e) :
    snapshot (check_replay_flood p now ts).1 = snapshot p := by
  rcases check_replay_flood_cases p now ts with ⟨_, heq⟩ | ⟨_, _, heq⟩ | ⟨_, _, heq⟩
  · rw [heq]
  · rw [heq]
  · rw [heq] at h
    exact absurd h (by simp)

/-- Witness for C1: a peer holding timestamp (5, 0) is presented (5, 0)
again; the call denies with `OldTimestamp` and the snapshot is unchanged. -/
theorem check_replay_flood_no_mutation_on_denial_witness :
    snapshot (check_replay_flood
      { state := State.Reset, timestamp := some ⟨5, 0⟩,
        last_initiation_consumption := none, macs := 0 } 0 ⟨5, 0⟩).1 =
    snapshot
      { state := State.Reset, timestamp := some ⟨5, 0⟩,
        last_initiation_consumption := none, macs := 0 } :=
  check_replay_flood_no_mutation_on_denial _ 0 ⟨5, 0⟩
    HandshakeError.OldTimestamp (by rfl)

/-- C2: `check_replay_flood` denies with `OldTimestamp` exactly when a prior
timestamp is stored and the candidate is not strictly newer than it under the
timestamp comparator; with no stored timestamp the replay check never
denies. -/
theorem check_replay_flood_old_timestamp_iff
    (p : PeerMut) (now : Instant) (ts : TAI64N) :
    (check_replay_flood p now ts).2.2 = Except.error HandshakeError.OldTimestamp
      ↔ ∃ old, p.timestamp = some old ∧ timestamp.compare old ts = false := by
  constructor
  · intro h
    rcases check_replay_flood_cases p now ts with
      ⟨hc, _⟩ | ⟨_, _, heq⟩ | ⟨_, _, heq⟩
    · exact hc
    · rw [heq] at h
      exact absurd h (by simp)
    · rw [heq] at h
      exact absurd h (by simp)
  · rintro ⟨old, hold, hcmp⟩
    rcases check_replay_flood_cases p now ts with
      ⟨_, heq⟩ | ⟨hok, _, _⟩ | ⟨hok, _, _⟩
    · rw [heq]
    · exact absurd (replay_deny_pass_contradiction p ts old hold hcmp hok) id
    · exact absurd (replay_deny_pass_contradiction p ts old hold hcmp hok) id

/-- C3: `check_replay_flood` denies with `InitiationFlood` exactly when the
replay check passes (no stored timestamp, or candidate strictly newer) and a
flood marker is stored with less than `TIME_BETWEEN_INITIATIONS` — the fixed
20-millisecond minimum inter-initiation interval — elapsed since it; and a
candidate that is both stale and within the interval is denied with
`OldTimestamp`, not `InitiationFlood`. -/
theorem check_replay_flood_initiation_flood_iff :
    (∀ (p : PeerMut) (now : Instant) (ts : TAI64N),
      (check_replay_flood p now ts).2.2 = Except.error HandshakeError.InitiationFlood
        ↔ ((p.timestamp = none ∨
              ∃ old, p.timestamp = some old ∧ timestamp.compare old ts = true)
            ∧ ∃ last, p.last_initiation_consumption = some last ∧
                now - last < TIME_BETWEEN_INITIATIONS))
    ∧ TIME_BETWEEN_INITIATIONS = Duration.from_millis 20
    ∧ (∀ (p : PeerMut) (now : Instant) (ts old : TAI64N) (last : Instant),
        p.timestamp = some old → timestamp.compare old ts = false →
        p.last_initiation_consumption = some last →
        now - last < TIME_BETWEEN_INITIATIONS →
        (check_replay_flood p now ts).2.2 =
          Except.error HandshakeError.OldTimestamp) := by
  refine ⟨?_, rfl, ?_⟩
  · intro p now ts
    constructor
    · intro h
      rcases check_replay_flood_cases p now ts with
        ⟨_, heq⟩ | ⟨hpass, hfl, _⟩ | ⟨_, _, heq⟩
      · rw [heq] at h
        exact absurd h (by simp)
      · exact ⟨hpass, hfl⟩
      · rw [heq] at h
        exact absurd h (by simp)
    · rintro ⟨hpass, last, hlast, hel⟩
      rcases check_replay_flood_cases p now ts with
        ⟨⟨old, hold, hcmp⟩, _⟩ | ⟨_, _, heq⟩ | ⟨_, hnofl, _⟩
      · exact absurd (replay_deny_pass_contradiction p ts old hold hcmp hpass) id
      · rw [heq]
      · exact absurd (flood_deny_pass_contradiction p now last hlast hel hnofl) id
  · intro p now ts old last hold hcmp _ _
    exact (check_replay_flood_old_timestamp_iff p now ts).mpr ⟨old, hold, hcmp⟩

/-- Witness for C3: a fresh candidate within 20 ms of the marker is denied
with `InitiationFlood` (first conjunct), and a stale candidate within 20 ms
of the marker is denied with `OldTimestamp` (third conjunct). -/
theorem check_replay_flood_initiation_flood_iff_witness :
    (check_replay_flood
      { state := State.Reset, timestamp := some ⟨5, 0⟩,
        last_initiation_consumption := some 100, macs := 0 } 101 ⟨6, 0⟩).2.2 =
      Except.error HandshakeError.InitiationFlood
    ∧ (check_replay_flood
      { state := State.Reset, timestamp := some ⟨5, 0⟩,
        last_initiation_consumption := some 100, macs := 0 } 101 ⟨5, 0⟩).2.2 =
      Except.error HandshakeError.OldTimestamp :=
  ⟨(check_replay_flood_initiation_flood_iff.1 _ 101 ⟨6, 0⟩).mpr
      ⟨Or.inr ⟨⟨5, 0⟩, rfl, by decide⟩, 100, rfl, by decide⟩,
   check_replay_flood_initiation_flood_iff.2.2 _ 101 ⟨5, 0⟩ ⟨5, 0⟩ 100
      rfl (by decide) rfl (by decide)⟩

/-- C5: when `check_replay_flood` succeeds, the resulting mutable state has
phase `Reset`, stored timestamp equal to the admitted candidate, flood marker
equal to the current instant, and an unchanged `macs` generator — the commit
writes exactly the three protection fields. -/
theorem check_replay_flood_success_commit
    (p : PeerMut) (now : Instant) (ts : TAI64N)
    (h : (check_replay_flood p now ts).2.2 = Except.ok ()) :
    (check_replay_flood p now ts).1 =
      { state := State.Reset, timestamp := some ts,
        last_initiation_consumption := some now, macs := p.macs } := by
  rcases check_replay_flood_cases p now ts with ⟨_, heq⟩ | ⟨_, _, heq⟩ | ⟨_, _, heq⟩
  · rw [heq] at h
    exact absurd h (by simp)
  · rw [heq] at h
    exact absurd h (by simp)
  · rw [heq]

/-- Witness for C5: a freshly constructed peer admits timestamp (1, 0) at
instant 7 and commits exactly (Reset, (1, 0), 7). -/
theorem check_replay_flood_success_commit_witness :
    (check_replay_flood (Peer.new 3) 7 ⟨1, 0⟩).1 =
      { state := State.Reset, timestamp := some ⟨1, 0⟩,
        last_initiation_consumption := some 7, macs := 3 } :=
  check_replay_flood_success_commit (Peer.new 3) 7 ⟨1, 0⟩ (by rfl)

/-- C6: a successful call on a peer in `InitiationSent` with sender `S`
releases exactly `[S]` to the registry and leaves the phase `Reset`; a
denied call releases nothing; a successful call on a peer in `Reset`
releases nothing, the resulting phase again `Reset`. -/
theorem check_replay_flood_release_calls :
    (∀ (p : PeerMut) (now : Instant) (ts : TAI64N) (S : Nat)
        (sk : StaticSecret) (hs ck : List Nat),
        p.state = State.InitiationSent S sk hs ck →
        (check_replay_flood p now ts).2.2 = Except.ok () →
        (check_replay_flood p now ts).2.1 = [S] ∧
          (check_replay_flood p now ts).1.state = State.Reset)
    ∧ (∀ (p : PeerMut) (now : Instant) (ts : TAI64N) (e : HandshakeError),
        (check_replay_flood p now ts).2.2 = Except.error e →
        (check_replay_flood p now ts).2.1 = [])
    ∧ (∀ (p : PeerMut) (now : Instant) (ts : TAI64N),
        p.state = State.Reset →
        (check_replay_flood p now ts).2.2 = Except.ok () →
        (check_replay_flood p now ts).2.1 = [] ∧
          (check_replay_flood p now ts).1.state = State.Reset) := by
  refine ⟨?_, ?_, ?_⟩
  · intro p now ts S sk hs ck hstate h
    rcases check_replay_flood_cases p now ts with
      ⟨_, heq⟩ | ⟨_, _, heq⟩ | ⟨_, _, heq⟩
    · rw [heq] at h
      exact absurd h (by simp)
    · rw [heq] at h
      exact absurd h (by simp)
    · constructor
      · rw [heq, hstate]
      · rw [heq]
  · intro p now ts e h
    rcases check_replay_flood_cases p now ts with
      ⟨_, heq⟩ | ⟨_, _, heq⟩ | ⟨_, _, heq⟩
    · rw [heq]
    · rw [heq]
    · rw [heq] at h
      exact absurd h (by simp)
  · intro p now ts hstate h
    rcases check_replay_flood_cases p now ts with
      ⟨_, heq⟩ | ⟨_, _, heq⟩ | ⟨_, _, heq⟩
    · rw [heq] at h
      exact absurd h (by simp)
    · rw [heq] at h
      exact absurd h (by simp)
    · constructor
      · rw [heq, hstate]
      · rw [heq]

/-- Witness for C6: a peer whose phase is `InitiationSent` with sender 42
admits a first timestamp, releases exactly `[42]` and ends in `Reset`; the
same call denied by replay releases `[]`; a `Reset` peer's successful call
releases `[]` and ends in `Reset`. -/
theorem check_replay_flood_release_calls_witness :
    ((check_replay_flood
      { state := State.InitiationSent 42 ⟨[]⟩ [] [], timestamp := none,
        last_initiation_consumption := none, macs := 0 } 7 ⟨1, 0⟩).2.1 = [42]
     ∧ (check_replay_flood
      { state := State.InitiationSent 42 ⟨[]⟩ [] [], timestamp := none,
        last_initiation_consumption := none, macs := 0 } 7 ⟨1, 0⟩).1.state =
        State.Reset)
    ∧ (check_replay_flood
      { state := State.InitiationSent 42 ⟨[]⟩ [] [], timestamp := some ⟨1, 0⟩,
        last_initiation_consumption := none, macs := 0 } 7 ⟨1, 0⟩).2.1 = []
    ∧ ((check_replay_flood (Peer.new 0) 7 ⟨1, 0⟩).2.1 = []
        ∧ (check_replay_flood (Peer.new 0) 7 ⟨1, 0⟩).1.state = State.Reset) :=
  ⟨check_replay_flood_release_calls.1 _ 7 ⟨1, 0⟩ 42 ⟨[]⟩ [] [] rfl (by rfl),
   check_replay_flood_release_calls.2.1 _ 7 ⟨1, 0⟩
      HandshakeError.OldTimestamp (by rfl),
   check_replay_flood_release_calls.2.2 (Peer.new 0) 7 ⟨1, 0⟩ rfl (by rfl)⟩

/-! ## Operation traces on one peer (for the monotonicity invariant) -/

/-- One call of the peer's public interface (§4.1): a read, an unconditional
phase replacement, or the admission gate. -/
inductive PeerOp where
  | get_state : PeerOp
  | set_state (s : State) : PeerOp
  | check (now : Instant) (ts : TAI64N) : PeerOp

/-- The effect of one call on the peer's mutable state: `get_state` only
reads, `set_state` overwrites the phase, `check_replay_flood` is the gate. -/
def PeerOp.apply (p : PeerMut) : PeerOp → PeerMut
  | PeerOp.get_state => p
  | PeerOp.set_state s => Peer.set_state p s
  | PeerOp.check now ts => (check_replay_flood p now ts).1

/-- Run a sequence of calls against a peer, starting from `p`. -/
def runOps (p : PeerMut) (ops : List PeerOp) : PeerMut :=
  ops.foldl PeerOp.apply p

/-- The timestamp comparator is transitive: it is the strict lexicographic
order on (sec, nsec). -/
theorem timestamp.compare_trans (a b c : TAI64N)
    (hab : timestamp.compare a b = true) (hbc : timestamp.compare b c = true) :
    timestamp.compare a c = true := by
  simp only [timestamp.compare, Bool.or_eq_true, Bool.and_eq_true,
    decide_eq_true_eq, beq_iff_eq] at hab hbc ⊢
  omega

/-- One call never decreases the stored timestamp: if a timestamp is stored
before the call, one is stored after it, equal or strictly newer. -/
theorem timestamp_step (p : PeerMut) (op : PeerOp) (a : TAI64N)
    (h : p.timestamp = some a) :
    ∃ b, (PeerOp.apply p op).timestamp = some b ∧
      (a = b ∨ timestamp.compare a b = true) := by
  cases op with
  | get_state => exact ⟨a, h, Or.inl rfl⟩
  | set_state s => exact ⟨a, h, Or.inl rfl⟩
  | check now ts =>
    rcases check_replay_flood_cases p now ts with
      ⟨_, heq⟩ | ⟨_, _, heq⟩ | ⟨hpass, _, heq⟩
    · exact ⟨a, by simp [PeerOp.apply, heq, h], Or.inl rfl⟩
    · exact ⟨a, by simp [PeerOp.apply, heq, h], Or.inl rfl⟩
    · refine ⟨ts, by simp [PeerOp.apply, heq], Or.inr ?_⟩
      rcases hpass with hnone | ⟨old, hold, hcmp⟩
      · rw [h] at hnone
        exact absurd hnone (by simp)
      · rw [h] at hold
        injection hold with he
        subst he
        exact hcmp

/-- Across any run, a stored timestamp persists and never goes backwards. -/
theorem timestamp_monotone_run (ops : List PeerOp) : ∀ (p : PeerMut) (a : TAI64N),
    p.timestamp = some a →
    ∃ b, (runOps p ops).timestamp = some b ∧
      (a = b ∨ timestamp.compare a b = true) := by
  induction ops with
  | nil => exact fun p a h => ⟨a, h, Or.inl rfl⟩
  | cons op rest ih =>
    intro p a h
    obtain ⟨b, hb, hab⟩ := timestamp_step p op a h
    obtain ⟨c, hc, hbc⟩ := ih (PeerOp.apply p op) b hb
    refine ⟨c, by simpa [runOps] using hc, ?_⟩
    rcases hab with rfl | hab
    · exact hbc
    · rcases hbc with rfl | hbc
      · exact Or.inr hab
      · exact Or.inr (timestamp.compare_trans a b c hab hbc)

/-- C7: the stored replay timestamp is monotone over every operation
sequence from construction: it starts absent; only a successful
`check_replay_flood` ever changes it (and then stores the admitted
candidate); each successful admission over a stored timestamp stores one
strictly greater per the comparator; and once stored it is never cleared nor
rolled back across any further operations. -/
theorem peer_timestamp_monotone :
    (∀ m : Nat, (Peer.new m).timestamp = none)
    ∧ (∀ (p : PeerMut) (op : PeerOp),
        (PeerOp.apply p op).timestamp ≠ p.timestamp →
        ∃ now ts, op = PeerOp.check now ts ∧
          (check_replay_flood p now ts).2.2 = Except.ok () ∧
          (PeerOp.apply p op).timestamp = some ts)
    ∧ (∀ (p : PeerMut) (now : Instant) (ts old : TAI64N),
        p.timestamp = some old →
        (check_replay_flood p now ts).2.2 = Except.ok () →
        (check_replay_flood p now ts).1.timestamp = some ts ∧
          timestamp.compare old ts = true)
    ∧ (∀ (ops1 ops2 : List PeerOp) (m : Nat) (a : TAI64N),
        (runOps (Peer.new m) ops1).timestamp = some a →
        ∃ b, (runOps (Peer.new m) (ops1 ++ ops2)).timestamp = some b ∧
          (a = b ∨ timestamp.compare a b = true)) := by
  refine ⟨fun _ => rfl, ?_, ?_, ?_⟩
  · intro p op hne
    cases op with
    | get_state => exact absurd rfl hne
    | set_state s => exact absurd rfl hne
    | check now ts =>
      rcases check_replay_flood_cases p now ts with
        ⟨_, heq⟩ | ⟨_, _, heq⟩ | ⟨_, _, heq⟩
      · exact absurd (by simp [PeerOp.apply, heq]) hne
      · exact absurd (by simp [PeerOp.apply, heq]) hne
      · exact ⟨now, ts, rfl, by simp [heq], by simp [PeerOp.apply, heq]⟩
  · intro p now ts old hold h
    rcases check_replay_flood_cases p now ts with
      ⟨_, heq⟩ | ⟨_, _, heq⟩ | ⟨hpass, _, heq⟩
    · rw [heq] at h
      exact absurd h (by simp)
    · rw [heq] at h
      exact absurd h (by simp)
    · refine ⟨by simp [heq], ?_⟩
      rcases hpass with hnone | ⟨o, ho, hcmp⟩
      · rw [hold] at hnone
        exact absurd hnone (by simp)
      · rw [hold] at ho
        injection ho with he
        subst he
        exact hcmp
  · intro ops1 ops2 m a ha
    have := timestamp_monotone_run ops2 (runOps (Peer.new m) ops1) a ha
    simpa [runOps] using this

/-- Witness for C7: the only mutation across a run `admit (1,0); admit (2,0)`
is by successful admissions, and the timestamp stored after the prefix
persists, equal or strictly older than the final one. -/
theorem peer_timestamp_monotone_witness :
    (∃ now ts, PeerOp.check 7 ⟨1, 0⟩ = PeerOp.check now ts ∧
      (check_replay_flood (Peer.new 0) now ts).2.2 = Except.ok () ∧
      (PeerOp.apply (Peer.new 0) (PeerOp.check 7 ⟨1, 0⟩)).timestamp = some ts)
    ∧ (∃ b, (runOps (Peer.new 0)
        ([PeerOp.check 7 ⟨1, 0⟩] ++ [PeerOp.check 99000000 ⟨2, 0⟩])).timestamp
          = some b ∧
        ((⟨1, 0⟩ : TAI64N) = b ∨ timestamp.compare ⟨1, 0⟩ b = true)) :=
  ⟨peer_timestamp_monotone.2.1 (Peer.new 0) (PeerOp.check 7 ⟨1, 0⟩) (by simp [PeerOp.apply, check_replay_flood, Peer.new]),
   peer_timestamp_monotone.2.2.2 [PeerOp.check 7 ⟨1, 0⟩]
     [PeerOp.check 99000000 ⟨2, 0⟩] 0 ⟨1, 0⟩ (by rfl)⟩

/-- C8: cloning a phase value yields an equal value — for `InitiationSent`
the sender, handshake hash and chaining key are copied and the rebuilt
ephemeral secret carries the same scalar bytes (the clamping the library
constructor applies is the identity on the already-clamped stored scalar) —
and `Reset` clones to `Reset`; a read after a phase replacement returns the
clone of the new phase, never a view of the old one. -/
theorem state_clone_independence :
    State.clone State.Reset = State.Reset
    ∧ (∀ (sender : Nat) (sk : StaticSecret) (hs ck : List Nat),
        clamp_scalar sk.bytes = sk.bytes →
        State.clone (State.InitiationSent sender sk hs ck) =
          State.InitiationSent sender sk hs ck)
    ∧ (∀ (p : PeerMut) (s : State),
        Peer.get_state (Peer.set_state p s) = State.clone s) := by
  refine ⟨rfl, ?_, fun p s => rfl⟩
  intro sender sk hs ck hclamp
  obtain ⟨b⟩ := sk
  simp only [State.clone, StaticSecret.from2, StaticSecret.to_bytes]
  rw [hclamp]

/-- Witness for C8: a clamped 32-byte scalar (low bits of byte 0 clear, top
bit of byte 31 clear, bit 6 set) survives the clone round-trip unchanged. -/
theorem state_clone_independence_witness :
    State.clone
      (State.InitiationSent 1 ⟨8 :: (List.replicate 30 0 ++ [64])⟩ [] []) =
    State.InitiationSent 1 ⟨8 :: (List.replicate 30 0 ++ [64])⟩ [] [] :=
  state_clone_independence.2.1 1 ⟨8 :: (List.replicate 30 0 ++ [64])⟩ [] []
    (by decide)

/-! ## Behaviour of the serializer on a fault-free sink -/

/-- On a fault-free sink one raw write appends its chunk. -/
theorem rawWrite_ok (w : MockWriter) (s : String) :
    rawWrite okOracle w s =
      ({ chunks := w.chunks ++ [s], calls := w.calls + 1 }, Except.ok ()) := rfl

/-- On a fault-free sink one key-value line appends its four chunks. -/
theorem write_ok (w : MockWriter) (key value : String) :
    write okOracle w key value =
      ({ chunks := w.chunks ++ kvChunks key value, calls := w.calls + 4 },
       Except.ok ()) := by
  simp [write, rawWrite, okOracle, kvChunks]

/-- On a fault-free sink the allowed-IP loop appends one line per entry, in
order, and succeeds. -/
theorem serializeAllowedIps_ok (ips : List (String × Nat)) :
    ∀ w : MockWriter, ∃ w',
      serializeAllowedIps okOracle w ips = (w', Except.ok ()) ∧
      w'.chunks = w.chunks ++
        ips.flatMap (fun q => kvChunks "allowed_ip" (q.1 ++ "/" ++ toString q.2)) := by
  induction ips with
  | nil => exact fun w => ⟨w, rfl, by simp⟩
  | cons q rest ih =>
    intro w
    obtain ⟨ip, cidr⟩ := q
    obtain ⟨w', hw', hch⟩ := ih
      { chunks := w.chunks ++ kvChunks "allowed_ip" (ip ++ "/" ++ toString cidr),
        calls := w.calls + 4 }
    refine ⟨w', ?_, ?_⟩
    · simp only [serializeAllowedIps, write_ok]
      exact hw'
    · rw [hch]
      simp [kvChunks]

/-- On a fault-free sink one peer entry appends exactly its chunk list and
succeeds. -/
theorem serializePeerEntry_ok (p : PeerEntry) (w : MockWriter) : ∃ w',
    serializePeerEntry okOracle w p = (w', Except.ok ()) ∧
    w'.chunks = w.chunks ++ peerChunks p := by
  obtain ⟨w', hw', hch⟩ := serializeAllowedIps_ok p.allowed_ips
    { chunks := w.chunks ++ kvChunks "rx_bytes" (toString p.rx_bytes)
        ++ kvChunks "tx_bytes" (toString p.tx_bytes)
        ++ kvChunks "last_handshake_time_sec" (toString p.last_handshake_time_nsec)
        ++ kvChunks "last_handshake_time_nsec" (toString p.last_handshake_time_nsec)
        ++ kvChunks "public_key" (hexEncode p.public_key)
        ++ kvChunks "preshared_key" (hexEncode p.preshared_key),
      calls := w.calls + 4 + 4 + 4 + 4 + 4 + 4 }
  refine ⟨w', ?_, ?_⟩
  · simp only [serializePeerEntry, write_ok]
    exact hw'
  · rw [hch, peerChunks]
    simp [kvChunks]

/-- On a fault-free sink the peer loop appends the peers' chunk lists in
REVERSE order of the input sequence — `Vec::pop` iteration — and succeeds. -/
theorem serializePeers_ok (peers : List PeerEntry) :
    ∀ w : MockWriter, ∃ w',
      serializePeers okOracle w peers = (w', Except.ok ()) ∧
      w'.chunks = w.chunks ++ peers.reverse.flatMap peerChunks := by
  induction peers using List.reverseRecOn with
  | nil =>
    intro w
    refine ⟨w, ?_, by simp⟩
    rw [serializePeers]
    split
    · rfl
    · rename_i p h2
      simp at h2
  | append_singleton l a ih =>
    intro w
    obtain ⟨w1, hw1, hch1⟩ := serializePeerEntry_ok a w
    obtain ⟨w2, hw2, hch2⟩ := ih w1
    refine ⟨w2, ?_, ?_⟩
    · rw [serializePeers]
      split
      · rename_i h2
        simp at h2
      · rename_i p h2
        rw [List.getLast?_concat] at h2
        injection h2 with he
        subst he
        rw [hw1]
        simp only [List.dropLast_concat]
        exact hw2
    · rw [hch2, hch1]
      simp

/-- The chunks the interface section leaves on a fault-free sink. -/
theorem interfaceWriter_chunks (config : Config) (w : MockWriter) :
    (interfaceWriter okOracle w config).chunks =
      w.chunks ++ interfaceChunks config := by
  obtain ⟨pk, port, fw, peers⟩ := config
  cases pk <;> cases port <;> cases fw <;>
    simp [interfaceWriter, interfaceChunks, write_ok]

/-- Structural decomposition of `serialize`: the interface section only
threads the writer — its `io::Result` values are dropped inside
`Option::map` — and the overall result is exactly the peer loop's. -/
theorem serialize_decompose (oracle : Nat → Option IOErr) (w : MockWriter)
    (config : Config) :
    serialize oracle w config =
      serializePeers oracle (interfaceWriter oracle w config) config.peers := rfl

/-- Unfolding of the peer loop on a one-peer sequence. -/
theorem serializePeers_singleton (oracle : Nat → Option IOErr)
    (w : MockWriter) (p : PeerEntry) :
    serializePeers oracle w [p] =
      match serializePeerEntry oracle w p with
      | (w2, Except.error e) => (w2, Except.error e)
      | (w2, Except.ok _) => (w2, Except.ok ()) := by
  rw [serializePeers]
  split
  · rename_i h2
    simp at h2
  · rename_i q h2
    have hq : p = q := by
      simpa using h2
    subst hq
    rcases hr : serializePeerEntry oracle w p with ⟨w2, r⟩
    rcases r with e | u
    · rfl
    · show serializePeers oracle w2 [p].dropLast = _
      rw [serializePeers]
      rfl

/-- A peer record whose seconds and nanoseconds components differ, to probe
the two last-handshake lines. -/
def c4peer : PeerEntry :=
  { rx_bytes := 0, tx_bytes := 0, last_handshake_time_sec := 1,
    last_handshake_time_nsec := 2, public_key := [], preshared_key := [],
    allowed_ips := [] }

/-- C4 (against the code as written): in every emitted peer entry the chunk
at offset 8 is the key `last_handshake_time_sec` and the value chunk at
offset 10 on that line is the peer's NANOSECONDS component — the source
passes `p.last_handshake_time_nsec` for both last-handshake lines — so for a
peer with seconds 1 and nanoseconds 2 the sec-keyed line carries "2", not
the seconds component "1" the claim requires. -/
theorem serialize_sec_line_carries_nsec :
    (∀ (p : PeerEntry) (w : MockWriter), ∃ w',
      serializePeerEntry okOracle w p = (w', Except.ok ()) ∧
      w'.chunks.getD (w.chunks.length + 8) "" = "last_handshake_time_sec" ∧
      w'.chunks.getD (w.chunks.length + 10) "" =
        toString p.last_handshake_time_nsec)
    ∧ (serializePeerEntry okOracle MockWriter.empty c4peer).1.chunks =
        ["rx_bytes", "=", "0", "\x0a", "tx_bytes", "=", "0", "\x0a",
         "last_handshake_time_sec", "=", "2", "\x0a",
         "last_handshake_time_nsec", "=", "2", "\x0a",
         "public_key", "=", "", "\x0a", "preshared_key", "=", "", "\x0a"]
    ∧ toString c4peer.last_handshake_time_sec = "1"
    ∧ c4peer.last_handshake_time_sec ≠ c4peer.last_handshake_time_nsec := by
  refine ⟨?_, by rfl, by rfl, by decide⟩
  intro p w
  obtain ⟨w', hw', hch⟩ := serializePeerEntry_ok p w
  refine ⟨w', hw', ?_, ?_⟩ <;>
  · rw [hch, List.getD_append_right _ _ _ _ (Nat.le_add_right _ _)]
    simp [peerChunks, kvChunks]

/-- An oracle failing only the very first raw write (the `private_key` key
chunk), with the opaque error 7. -/
def failFirstOracle : Nat → Option IOErr :=
  fun i => if i = 0 then some 7 else none

/-- An oracle failing only the fifth raw write — the first raw write of the
peer loop when a private key is present — with the opaque error 7. -/
def failPeerOracle : Nat → Option IOErr :=
  fun i => if i = 4 then some 7 else none

/-- A small peer record for the fault-injection scenarios. -/
def c9peer : PeerEntry :=
  { rx_bytes := 1, tx_bytes := 2, last_handshake_time_sec := 3,
    last_handshake_time_nsec := 4, public_key := [], preshared_key := [],
    allowed_ips := [] }

/-- A configuration with a private key present and one peer. -/
def c9config : Config :=
  { private_key := some ⟨List.replicate 32 0⟩, listen_port := none,
    fwmark := none, peers := [c9peer] }

/-- Evaluation of the first fault-injection scenario: the `private_key` key
chunk fails, the error is discarded, the peer is fully written, success. -/
theorem serialize_failFirst_eval :
    serialize failFirstOracle MockWriter.empty c9config =
      ({ chunks := ["rx_bytes", "=", "1", "\x0a", "tx_bytes", "=", "2", "\x0a",
          "last_handshake_time_sec", "=", "4", "\x0a",
          "last_handshake_time_nsec", "=", "4", "\x0a",
          "public_key", "=", "", "\x0a", "preshared_key", "=", "", "\x0a"],
         calls := 25 }, Except.ok ()) := by
  rw [serialize_decompose]
  show serializePeers failFirstOracle
      (interfaceWriter failFirstOracle MockWriter.empty c9config) [c9peer] = _
  rw [serializePeers_singleton]
  rfl

/-- Evaluation of the second fault-injection scenario: the interface line is
written whole, the first raw write of the peer loop fails with error 7, and
the loop aborts. -/
theorem serialize_failPeer_eval :
    serialize failPeerOracle MockWriter.empty c9config =
      ({ chunks := ["private_key", "=", hexEncode (List.replicate 32 0), "\x0a"],
         calls := 5 }, Except.error 7) := by
  rw [serialize_decompose]
  show serializePeers failPeerOracle
      (interfaceWriter failPeerOracle MockWriter.empty c9config) [c9peer] = _
  rw [serializePeers_singleton]
  rfl

/-- C9: the interface section's write errors are discarded — `serialize` is
exactly the peer loop run from whatever writer state the interface section
leaves, so a failure on the `private_key` line still yields `Ok` with that
line missing from the output — while a failing line inside a peer entry
(here: of the peer the loop pops first, the LAST of `get_peers`) aborts the
loop and surfaces as `serialize`'s error. -/
theorem serialize_interface_errors_discarded :
    (∀ (oracle : Nat → Option IOErr) (w : MockWriter) (config : Config),
      serialize oracle w config =
        serializePeers oracle (interfaceWriter oracle w config) config.peers)
    ∧ (serialize failFirstOracle MockWriter.empty c9config).2 = Except.ok ()
    ∧ "private_key" ∉ (serialize failFirstOracle MockWriter.empty c9config).1.chunks
    ∧ (∀ (oracle : Nat → Option IOErr) (w w2 : MockWriter)
        (peers : List PeerEntry) (p : PeerEntry) (e : IOErr),
        serializePeerEntry oracle w p = (w2, Except.error e) →
        serializePeers oracle w (peers ++ [p]) = (w2, Except.error e))
    ∧ (serialize failPeerOracle MockWriter.empty c9config).2 = Except.error 7 := by
  refine ⟨fun oracle w config => rfl, by rw [serialize_failFirst_eval],
    by rw [serialize_failFirst_eval]; decide, ?_,
    by rw [serialize_failPeer_eval]⟩
  intro oracle w w2 peers p e h
  rw [serializePeers]
  split
  · rename_i h2
    simp at h2
  · rename_i q h2
    rw [List.getLast?_concat] at h2
    injection h2 with he
    subst he
    rw [h]

/-- Witness for C9: a failure with error 3 on the very first line of the
last peer of the sequence aborts the loop immediately with error 3. -/
theorem serialize_interface_errors_discarded_witness :
    serializePeers (fun i => if i = 0 then some 3 else none)
      MockWriter.empty ([] ++ [c9peer]) =
      ({ chunks := [], calls := 1 }, Except.error 3) :=
  serialize_interface_errors_discarded.2.2.2.1
    (fun i => if i = 0 then some 3 else none) MockWriter.empty
    { chunks := [], calls := 1 } [] c9peer 3 (by rfl)

/-- C10: on a fault-free sink `serialize` emits the interface lines and then
the peer entries' lines in the REVERSE of the order of `config.get_peers` —
the loop pops the last element first — and returns `Ok`. -/
theorem serialize_emits_peers_reversed (config : Config) (w : MockWriter) :
    ∃ w', serialize okOracle w config = (w', Except.ok ()) ∧
      w'.chunks = w.chunks ++ interfaceChunks config ++
        config.peers.reverse.flatMap peerChunks := by
  obtain ⟨w', hw', hch⟩ :=
    serializePeers_ok config.peers (interfaceWriter okOracle w config)
  refine ⟨w', ?_, ?_⟩
  · rw [serialize_decompose]
    exact hw'
  · rw [hch, interfaceWriter_chunks]

end WireguardRs
